import Mathlib

/-!
Verification of the Todo/Contact CRUD API (Django REST framework app under
building_apis/first_api/todo).

The embedding models:
  - the Todo and Contact records (models.py),
  - the serializer validation pipeline (serializers.py) including the
    framework field checks (required / null / blank / max_length / boolean
    coercion), the per-field unique validators derived from the model
    (task) or declared on the serializer (phone_number, email), and the
    class-level UniqueTogetherValidator on (name, phone_number),
  - the request handlers (views.py): TodoListApiView.post with its
    hard-coded error branch, the generic detail view (full PUT update,
    DELETE with 404 on a missing id), and the generic Contact create view,
  - the custom exception classes (exceptions.py) and how an APIException
    renders to a status code and a detail message.

Wire values are JSON-like: null, string or boolean; timestamps are
abstract time points (Nat) supplied by the caller of each operation.
-/

namespace FirstApi

/-- A JSON-like wire value as accepted by the serializer fields. -/
inductive JVal where
  | jnull : JVal
  | jstr : String → JVal
  | jbool : Bool → JVal
deriving DecidableEq, Repr

/-- A stored Todo record (models.py, Todo): nullable unique task, details,
completed flag, and the two timestamps (created is set once, updated is
refreshed on every save). -/
structure Todo where
  id : Nat
  task : Option String
  details : String
  created : Nat
  completed : Bool
  updated : Nat
deriving DecidableEq, Repr

/-- The request body for a Todo create/update: each serializer field is
either absent from the payload or bound to a wire value. -/
structure TodoPayload where
  task : Option JVal
  details : Option JVal
  completed : Option JVal
deriving DecidableEq, Repr

/-- Result of deserializing a valid Todo payload: task distinguishes
absent (none) from supplied (some, possibly null); completed distinguishes
absent (none, model default applies on create) from supplied. -/
structure TodoValidated where
  task : Option (Option String)
  details : String
  completed : Option Bool
deriving DecidableEq, Repr

/-- String spellings accepted as True by the framework boolean field. -/
def boolTrueStrings : List String :=
  ["t", "T", "y", "Y", "yes", "Yes", "YES", "true", "True", "TRUE",
   "on", "On", "ON", "1"]

/-- String spellings accepted as False by the framework boolean field. -/
def boolFalseStrings : List String :=
  ["f", "F", "n", "N", "no", "No", "NO", "false", "False", "FALSE",
   "off", "Off", "OFF", "0"]

/-- Whether a record id is the one excluded from a uniqueness check (the
framework excludes the instance being updated). -/
def excludedId (exclude : Option Nat) (i : Nat) : Bool :=
  match exclude with
  | none => false
  | some e => i == e

/-- Deserialize and validate the task field: a CharField with
max_length 200, required false and allow_null true (from null=True on the
model field) plus the unique validator derived from unique=True. The
uniqueness check runs against the store, skipping the excluded instance. -/
def validateTask (store : List Todo) (exclude : Option Nat) (v : Option JVal) :
    Except (String × String) (Option (Option String)) :=
  match v with
  | none => .ok none
  | some .jnull => .ok (some none)
  | some (.jbool _) => .error ("task", "Not a valid string.")
  | some (.jstr s) =>
    if s = "" then .error ("task", "This field may not be blank.")
    else if s.length > 200 then
      .error ("task", "Ensure this field has no more than 200 characters.")
    else if store.any (fun td => td.task == some s && !(excludedId exclude td.id)) then
      .error ("task", "This field must be unique.")
    else .ok (some (some s))

/-- Deserialize and validate the details field: a required CharField with
max_length 500, no null and no blank. -/
def validateDetails (v : Option JVal) : Except (String × String) String :=
  match v with
  | none => .error ("details", "This field is required.")
  | some .jnull => .error ("details", "This field may not be null.")
  | some (.jbool _) => .error ("details", "Not a valid string.")
  | some (.jstr s) =>
    if s = "" then .error ("details", "This field may not be blank.")
    else if s.length > 500 then
      .error ("details", "Ensure this field has no more than 500 characters.")
    else .ok s

/-- Deserialize and validate the completed field: a BooleanField that is
not required (the model supplies default False on create) and accepts the
usual string spellings of a boolean. -/
def validateCompleted (v : Option JVal) : Except (String × String) (Option Bool) :=
  match v with
  | none => .ok none
  | some .jnull => .error ("completed", "This field may not be null.")
  | some (.jbool b) => .ok (some b)
  | some (.jstr s) =>
    if boolTrueStrings.contains s then .ok (some true)
    else if boolFalseStrings.contains s then .ok (some false)
    else .error ("completed", "Must be a valid boolean.")

/-- Turn a field result into its contribution to the error mapping. -/
def errList {α : Type} : Except (String × String) α → List (String × String)
  | .ok _ => []
  | .error e => [e]

/-- Run the TodoSerializer on a payload: each field is validated
independently and the per-field errors are collected in field order
(task, details, completed); the result is the validated data when every
field passed. -/
def validateTodo (store : List Todo) (exclude : Option Nat) (p : TodoPayload) :
    Except (List (String × String)) TodoValidated :=
  match validateTask store exclude p.task, validateDetails p.details,
        validateCompleted p.completed with
  | .ok a, .ok b, .ok c => .ok ⟨a, b, c⟩
  | ra, rb, rc => .error (errList ra ++ errList rb ++ errList rc)

/-- Whether the error mapping contains an entry for the given field. -/
def hasKey (k : String) (errs : List (String × String)) : Bool :=
  errs.any (fun e => e.1 == k)

/-- An APIException subclass carries a status code and a default detail
message (exceptions.py). -/
structure APIExceptionClass where
  status_code : Nat
  default_detail : String
deriving DecidableEq, Repr

/-- CustomException (exceptions.py): status 301 with its fixed message. -/
def CustomException : APIExceptionClass :=
  ⟨301, "Custom exception has been called."⟩

/-- NotAcceptable (exceptions.py): status 406, default message for empty
fields. -/
def NotAcceptable : APIExceptionClass :=
  ⟨406, "We cannot accept this because some fields are empty"⟩

/-- Raising an APIException with an optional detail renders as the status
code of the class together with a JSON body whose detail message is the
supplied one, or the default when none is supplied. -/
def raiseAPIException (e : APIExceptionClass) (detail : Option String) :
    Nat × String :=
  (e.status_code, detail.getD e.default_detail)

/-- Outcome of TodoListApiView.post: a 201 with the new record and store,
a raised NotAcceptable (406) with its detail message, or an uncaught
KeyError escaping the handler. -/
inductive TodoPostResult where
  | created : Todo → List Todo → TodoPostResult
  | notAcceptable : String → TodoPostResult
  | keyError : TodoPostResult
deriving DecidableEq, Repr

/-- TodoListApiView.post (views.py lines 37 to 63): validate the payload;
on success save a new record (task defaults to null when absent, completed
to False) and answer 201. On failure the handler first reads the first
message under the details key of the error mapping, which raises KeyError
when that key is absent; otherwise it overwrites the message with a
hard-coded one and raises NotAcceptable. -/
def todoPost (store : List Todo) (nextId : Nat) (p : TodoPayload) (now : Nat) :
    TodoPostResult :=
  match validateTodo store none p with
  | .ok v =>
    let r : Todo := ⟨nextId, v.task.getD none, v.details, now,
                     v.completed.getD false, now⟩
    .created r (store ++ [r])
  | .error errs =>
    if hasKey "details" errs then
      .notAcceptable ("we cannot accept this because " ++ "details field is required")
    else
      .keyError

/-- Whether a post outcome is the 201 created case. -/
def isCreated : TodoPostResult → Bool
  | .created _ _ => true
  | _ => false

/-- Look a Todo up by primary key, the way the detail view resolves the
id captured from the URL. -/
def findTodo (store : List Todo) (i : Nat) : Option Todo :=
  store.find? (fun t => t.id == i)

/-- Outcome of a PUT on the Todo detail view: 200 with the updated record
and store, 400 with the field errors, or 404 when the id is unknown. -/
inductive TodoPutResult where
  | updated : Todo → List Todo → TodoPutResult
  | badRequest : List (String × String) → TodoPutResult
  | notFound : TodoPutResult
deriving DecidableEq, Repr

/-- PUT on TodoDetailApiView (a RetrieveUpdateDestroyAPIView): resolve the
instance (404 when absent), run the serializer as a full update (PUT is
not partial, so details stays required while task and completed, being
optional with no serializer default, are simply left out of the validated
data when absent); on success set exactly the supplied fields, keep
created, and let save refresh updated to the current time. The unique
check on task excludes the instance being updated. -/
def todoPut (store : List Todo) (i : Nat) (p : TodoPayload) (now : Nat) :
    TodoPutResult :=
  match findTodo store i with
  | none => .notFound
  | some t =>
    match validateTodo store (some i) p with
    | .error errs => .badRequest errs
    | .ok v =>
      let r : Todo := ⟨t.id,
                       match v.task with
                       | none => t.task
                       | some x => x,
                       v.details, t.created, v.completed.getD t.completed, now⟩
      .updated r (store.map (fun u => if u.id == i then r else u))

/-- Outcome of a DELETE on the Todo detail view. -/
inductive TodoDeleteResult where
  | noContent : TodoDeleteResult
  | notFound : TodoDeleteResult
deriving DecidableEq, Repr

/-- HTTP status of a DELETE outcome (the framework answers 204 on success
and 404 when the object does not exist). -/
def deleteStatus : TodoDeleteResult → Nat
  | .noContent => 204
  | .notFound => 404

/-- DELETE on TodoDetailApiView: resolve the instance, answering 404 and
leaving the store untouched when the id is unknown, otherwise remove the
record. -/
def todoDelete (store : List Todo) (i : Nat) : TodoDeleteResult × List Todo :=
  match findTodo store i with
  | none => (.notFound, store)
  | some _ => (.noContent, store.filter (fun t => t.id != i))

/-- Render a stored task value back to the wire (null or string). -/
def serializeTask : Option String → JVal
  | none => .jnull
  | some s => .jstr s

/-- TodoSerializer rendering a record: the three declared fields, task as
null or string, details as string, completed as boolean. -/
def todoSerialize (t : Todo) : TodoPayload :=
  ⟨some (serializeTask t.task), some (.jstr t.details), some (.jbool t.completed)⟩

/-- A stored Contact record (models.py, Contact): three plain text fields
and no database-level uniqueness constraint on any of them. -/
structure Contact where
  name : String
  phone_number : String
  email : String
deriving DecidableEq, Repr

/-- The request body for a Contact create. -/
structure ContactPayload where
  name : Option JVal
  phone_number : Option JVal
  email : Option JVal
deriving DecidableEq, Repr

/-- Approximation of the framework email format check: one at sign
separating a nonempty local part from a dotted domain with nonempty
labels. -/
def isValidEmail (s : String) : Bool :=
  match s.data.splitOn '@' with
  | [lp, dom] =>
    let labels := dom.splitOn '.'
    !lp.isEmpty && labels.length != 1 && !labels.any (fun l => l.isEmpty)
  | _ => false

/-- Deserialize and validate the Contact name field: a required CharField. -/
def validateCName (v : Option JVal) : Except (String × String) String :=
  match v with
  | none => .error ("name", "This field is required.")
  | some .jnull => .error ("name", "This field may not be null.")
  | some (.jbool _) => .error ("name", "Not a valid string.")
  | some (.jstr s) =>
    if s = "" then .error ("name", "This field may not be blank.")
    else .ok s

/-- Deserialize and validate the Contact phone_number field: a required
CharField carrying the UniqueValidator declared in the serializer with
message "Phone number already entered". -/
def validateCPhone (store : List Contact) (v : Option JVal) :
    Except (String × String) String :=
  match v with
  | none => .error ("phone_number", "This field is required.")
  | some .jnull => .error ("phone_number", "This field may not be null.")
  | some (.jbool _) => .error ("phone_number", "Not a valid string.")
  | some (.jstr s) =>
    if s = "" then .error ("phone_number", "This field may not be blank.")
    else if store.any (fun c => c.phone_number == s) then
      .error ("phone_number", "Phone number already entered")
    else .ok s

/-- Deserialize and validate the Contact email field: a required
EmailField carrying the UniqueValidator declared in the serializer with
message "Email is already used". -/
def validateCEmail (store : List Contact) (v : Option JVal) :
    Except (String × String) String :=
  match v with
  | none => .error ("email", "This field is required.")
  | some .jnull => .error ("email", "This field may not be null.")
  | some (.jbool _) => .error ("email", "Not a valid string.")
  | some (.jstr s) =>
    if s = "" then .error ("email", "This field may not be blank.")
    else if !(isValidEmail s) then
      .error ("email", "Enter a valid email address.")
    else if store.any (fun c => c.email == s) then
      .error ("email", "Email is already used")
    else .ok s

/-- Run the ContactSerializer: the three fields are validated
independently and their errors collected; only when every field passed do
the class-level Meta validators run, here the UniqueTogetherValidator on
(name, phone_number) with message "No Phone number can have 2 different
names", reported under non_field_errors. -/
def validateContact (store : List Contact) (p : ContactPayload) :
    Except (List (String × String)) Contact :=
  match validateCName p.name, validateCPhone store p.phone_number,
        validateCEmail store p.email with
  | .ok n, .ok ph, .ok em =>
    if store.any (fun c => c.name == n && c.phone_number == ph) then
      .error [("non_field_errors", "No Phone number can have 2 different names")]
    else .ok ⟨n, ph, em⟩
  | rn, rp, re => .error (errList rn ++ errList rp ++ errList re)

/-- Outcome of a POST on the Contact list view: 201 with the new record
and store, or 400 with the per-field validation errors (the generic
create view raises on invalid input and the framework renders it as a
400 response carrying the error mapping). -/
inductive ContactPostResult where
  | created : Contact → List Contact → ContactPostResult
  | badRequest : List (String × String) → ContactPostResult
deriving DecidableEq, Repr

/-- POST on ContactApiView (a ListCreateAPIView): validate, then create
the record through the serializer create method. -/
def contactPost (store : List Contact) (p : ContactPayload) : ContactPostResult :=
  match validateContact store p with
  | .ok c => .created c (store ++ [c])
  | .error errs => .badRequest errs

/-- HTTP status of a Contact POST outcome. -/
def contactStatus : ContactPostResult → Nat
  | .created _ _ => 201
  | .badRequest _ => 400

/-- The validation errors a Contact POST reports (empty on success). -/
def contactValidationErrors (store : List Contact) (p : ContactPayload) :
    List (String × String) :=
  match validateContact store p with
  | .ok _ => []
  | .error errs => errs

/-- A direct ORM create on the Contact model, as the serializer create
method performs it once validation has been bypassed: the model itself
declares no uniqueness constraint, so the write always succeeds. -/
def contactDirectCreate (store : List Contact) (c : Contact) : List Contact :=
  store ++ [c]

/-- The uniqueness discipline the spec states for Contacts: pairwise
distinct phone numbers, pairwise distinct emails, and no repeated
(name, phone_number) pair. -/
def contactStoreInvariant (store : List Contact) : Prop :=
  store.Pairwise (fun a b =>
    a.phone_number ≠ b.phone_number ∧ a.email ≠ b.email ∧
    ¬(a.name = b.name ∧ a.phone_number = b.phone_number))

instance (store : List Contact) : Decidable (contactStoreInvariant store) :=
  inferInstanceAs (Decidable (store.Pairwise (fun a b : Contact =>
    a.phone_number ≠ b.phone_number ∧ a.email ≠ b.email ∧
    ¬(a.name = b.name ∧ a.phone_number = b.phone_number))))

/-- The Entity Store for Todos together with the next primary key the
database will hand out. -/
structure TodoStore where
  todos : List Todo
  nextId : Nat
deriving DecidableEq, Repr

/-- One API operation against the Todo resource. -/
inductive TodoOp where
  | post : TodoPayload → Nat → TodoOp
  | put : Nat → TodoPayload → Nat → TodoOp
  | del : Nat → TodoOp
deriving DecidableEq, Repr

/-- Apply one API operation to the store; failing operations leave the
store untouched. -/
def applyTodoOp (s : TodoStore) (op : TodoOp) : TodoStore :=
  match op with
  | .post p now =>
    match todoPost s.todos s.nextId p now with
    | .created _ store2 => ⟨store2, s.nextId + 1⟩
    | _ => s
  | .put i p now =>
    match todoPut s.todos i p now with
    | .updated _ store2 => ⟨store2, s.nextId⟩
    | _ => s
  | .del i => ⟨(todoDelete s.todos i).2, s.nextId⟩

/-- Run a sequence of API operations from the empty store. -/
def runTodoOps (ops : List TodoOp) : TodoStore :=
  ops.foldl applyTodoOp ⟨[], 0⟩

/-- No two records share a non-null task value. -/
def taskUnique (l : List Todo) : Prop :=
  l.Pairwise (fun a b => ∀ s : String, a.task = some s → b.task ≠ some s)

/-- Internal health of the store: ids are below the next key, pairwise
distinct, and tasks satisfy the uniqueness invariant. -/
def storeInv (s : TodoStore) : Prop :=
  (∀ t ∈ s.todos, t.id < s.nextId) ∧
  s.todos.Pairwise (fun a b => a.id ≠ b.id) ∧
  taskUnique s.todos

theorem validateTodo_ok_parts {store : List Todo} {exclude : Option Nat}
    {p : TodoPayload} {v : TodoValidated}
    (h : validateTodo store exclude p = .ok v) :
    validateTask store exclude p.task = .ok v.task ∧
    validateDetails p.details = .ok v.details ∧
    validateCompleted p.completed = .ok v.completed := by
  unfold validateTodo at h
  cases h1 : validateTask store exclude p.task <;>
    cases h2 : validateDetails p.details <;>
      cases h3 : validateCompleted p.completed <;>
        rw [h1, h2, h3] at h <;> simp [errList] at h
  subst h
  exact ⟨rfl, rfl, rfl⟩

theorem todoPost_created {store : List Todo} {nid : Nat} {p : TodoPayload}
    {now : Nat} {r : Todo} {store2 : List Todo}
    (h : todoPost store nid p now = .created r store2) :
    ∃ v, validateTodo store none p = .ok v ∧
      r = ⟨nid, v.task.getD none, v.details, now, v.completed.getD false, now⟩ ∧
      store2 = store ++ [r] := by
  unfold todoPost at h
  cases hv : validateTodo store none p with
  | ok v =>
    rw [hv] at h
    simp only [TodoPostResult.created.injEq] at h
    exact ⟨v, rfl, h.1.symm, by rw [← h.2, h.1]⟩
  | error errs =>
    rw [hv] at h
    by_cases hk : hasKey "details" errs = true <;> simp [hk] at h

theorem validateTask_ok_unique {store : List Todo} {exclude : Option Nat}
    {x : Option JVal} {t : String}
    (h : validateTask store exclude x = .ok (some (some t))) :
    ∀ td ∈ store, excludedId exclude td.id = false → td.task ≠ some t := by
  intro td htd hexcl
  cases x with
  | none => simp [validateTask] at h
  | some j =>
    cases j with
    | jnull => simp [validateTask] at h
    | jbool b => simp [validateTask] at h
    | jstr s =>
      unfold validateTask at h
      by_cases hb : s = ""
      · simp [hb] at h
      · by_cases hl : s.length > 200
        · simp [hb, hl] at h
        · by_cases hd : store.any (fun td => td.task == some s && !(excludedId exclude td.id)) = true
          · simp [hb, hl, hd] at h
          · simp [hb, hl, hd] at h
            have := List.any_eq_false.mp (Bool.not_eq_true _ ▸ hd) td htd
            simp [hexcl] at this
            rw [← h]
            exact this

/-- C7: DELETE on a nonexistent Todo id answers 404, not 200, and leaves
the store unchanged. -/
theorem C7_delete_missing_id (store : List Todo) (i : Nat)
    (h : findTodo store i = none) :
    todoDelete store i = (.notFound, store) ∧
    deleteStatus (todoDelete store i).1 = 404 ∧
    deleteStatus (todoDelete store i).1 ≠ 200 := by
  have heq : todoDelete store i = (.notFound, store) := by
    unfold todoDelete
    rw [h]
  refine ⟨heq, ?_, ?_⟩ <;> rw [heq] <;> simp [deleteStatus]

/-- C7 witness: deleting id 9 from a store holding only id 1 answers 404
and changes nothing. -/
theorem C7_delete_missing_id_witness :
    todoDelete [⟨1, some "a", "d", 0, false, 0⟩] 9 =
      (.notFound, [⟨1, some "a", "d", 0, false, 0⟩]) ∧
    deleteStatus (todoDelete [⟨1, some "a", "d", 0, false, 0⟩] 9).1 = 404 ∧
    deleteStatus (todoDelete [⟨1, some "a", "d", 0, false, 0⟩] 9).1 ≠ 200 :=
  C7_delete_missing_id [⟨1, some "a", "d", 0, false, 0⟩] 9 (by decide)

/-- C8: the generic custom condition renders as status 301 with its fixed
message, and the not-acceptable condition renders as status 406 with the
caller-supplied detail, or its default message when none is supplied. -/
theorem C8_custom_error_rendering :
    raiseAPIException CustomException none =
      (301, "Custom exception has been called.") ∧
    (∀ d : String, raiseAPIException NotAcceptable (some d) = (406, d)) ∧
    raiseAPIException NotAcceptable none =
      (406, "We cannot accept this because some fields are empty") :=
  ⟨rfl, fun _ => rfl, rfl⟩

/-- C1 counterexample: a POST whose payload fails validation only on task
(a duplicate task with valid details) does not raise the 406 Not
Acceptable error; the handler hits an uncaught KeyError instead. -/
theorem C1_counterexample :
    validateTodo [⟨1, some "a", "d", 0, false, 0⟩] none
        ⟨some (.jstr "a"), some (.jstr "ok"), none⟩ =
      .error [("task", "This field must be unique.")] ∧
    todoPost [⟨1, some "a", "d", 0, false, 0⟩] 2
        ⟨some (.jstr "a"), some (.jstr "ok"), none⟩ 5 = .keyError ∧
    todoPost [⟨1, some "a", "d", 0, false, 0⟩] 2
        ⟨some (.jstr "a"), some (.jstr "ok"), none⟩ 5 ≠
      .notAcceptable "we cannot accept this because details field is required" :=
  ⟨rfl, rfl, by decide⟩

/-- C1 amended: only when the validation error mapping contains an entry
for details does the handler raise the custom Not Acceptable error, whose
status is 406 and whose detail is the hard-coded message; invalid
payloads without a details entry take the KeyError path instead. -/
theorem C1_amended_406_on_details_error (store : List Todo) (nid now : Nat)
    (p : TodoPayload) (errs : List (String × String))
    (hv : validateTodo store none p = .error errs)
    (hk : hasKey "details" errs = true) :
    todoPost store nid p now =
      .notAcceptable "we cannot accept this because details field is required" ∧
    NotAcceptable.status_code = 406 := by
  refine ⟨?_, rfl⟩
  unfold todoPost
  rw [hv]
  simp [hk]

/-- C1 witness: a POST with every field missing fails on details and is
answered with the 406 hard-coded message. -/
theorem C1_amended_406_on_details_error_witness :
    todoPost [] 0 ⟨none, none, none⟩ 5 =
      .notAcceptable "we cannot accept this because details field is required" ∧
    NotAcceptable.status_code = 406 :=
  C1_amended_406_on_details_error [] 0 5 ⟨none, none, none⟩
    [("details", "This field is required.")] rfl (by decide)

/-- C9: on the failure branch the handler reads the details entry of the
error mapping first, so every invalid POST whose errors do not mention
details escapes as an uncaught KeyError rather than the 406 error. -/
theorem C9_keyerror_without_details_entry (store : List Todo) (nid now : Nat)
    (p : TodoPayload) (errs : List (String × String))
    (hv : validateTodo store none p = .error errs)
    (hk : hasKey "details" errs = false) :
    todoPost store nid p now = .keyError := by
  unfold todoPost
  rw [hv]
  simp [hk]

/-- C9 witness: a payload with valid details but a duplicate task fails
validation without a details entry and raises KeyError. -/
theorem C9_keyerror_without_details_entry_witness :
    todoPost [⟨3, some "b", "x", 1, true, 1⟩] 4
      ⟨some (.jstr "b"), some (.jstr "fine"), some (.jbool false)⟩ 2 = .keyError :=
  C9_keyerror_without_details_entry [⟨3, some "b", "x", 1, true, 1⟩] 4 2
    ⟨some (.jstr "b"), some (.jstr "fine"), some (.jbool false)⟩
    [("task", "This field must be unique.")] rfl (by decide)

/-- The updated record of a PUT outcome, when there is one. -/
def putRecord : TodoPutResult → Option Todo
  | .updated r _ => some r
  | _ => none

/-- The store after a PUT outcome, falling back to the old store when the
request failed. -/
def putStore (res : TodoPutResult) (fallback : List Todo) : List Todo :=
  match res with
  | .updated _ s => s
  | _ => fallback

/-- C6 counterexample: a PUT supplying only completed (a subset of the
fields) on an existing Todo is rejected with a 400 details-required error
and updates nothing, because PUT on the generic detail view is a full
update where details stays required. -/
theorem C6_counterexample :
    todoPut [⟨1, some "a", "d", 0, false, 0⟩] 1 ⟨none, none, some (.jbool true)⟩ 7 =
      .badRequest [("details", "This field is required.")] ∧
    putStore (todoPut [⟨1, some "a", "d", 0, false, 0⟩] 1
        ⟨none, none, some (.jbool true)⟩ 7) [⟨1, some "a", "d", 0, false, 0⟩] =
      [⟨1, some "a", "d", 0, false, 0⟩] :=
  ⟨rfl, rfl⟩

/-- C6 amended: a PUT on an existing Todo whose payload passes the (full
update) validation, which requires details to be supplied while task and
completed may be omitted, succeeds updating exactly the supplied fields:
omitted fields keep their previous values, created is unchanged, updated
becomes the current time, and other records are untouched. -/
theorem C6_amended_put_frame (store : List Todo) (i now : Nat)
    (p : TodoPayload) (t : Todo) (v : TodoValidated)
    (hf : findTodo store i = some t)
    (hv : validateTodo store (some i) p = .ok v) :
    (putRecord (todoPut store i p now)).map Todo.created = some t.created ∧
    (putRecord (todoPut store i p now)).map Todo.updated = some now ∧
    (putRecord (todoPut store i p now)).map Todo.details = some v.details ∧
    (v.task = none → (putRecord (todoPut store i p now)).map Todo.task = some t.task) ∧
    (∀ x, v.task = some x → (putRecord (todoPut store i p now)).map Todo.task = some x) ∧
    (v.completed = none →
      (putRecord (todoPut store i p now)).map Todo.completed = some t.completed) ∧
    (∀ b, v.completed = some b →
      (putRecord (todoPut store i p now)).map Todo.completed = some b) ∧
    (∀ u ∈ store, u.id ≠ i → u ∈ putStore (todoPut store i p now) store) := by
  have hput : todoPut store i p now =
      .updated ⟨t.id,
                match v.task with
                | none => t.task
                | some x => x,
                v.details, t.created, v.completed.getD t.completed, now⟩
        (store.map (fun u => if u.id == i then
          (⟨t.id,
            match v.task with
            | none => t.task
            | some x => x,
            v.details, t.created, v.completed.getD t.completed, now⟩ : Todo) else u)) := by
    unfold todoPut
    rw [hf, hv]
  rw [hput]
  refine ⟨rfl, rfl, rfl, ?_, ?_, ?_, ?_, ?_⟩
  · intro hx
    simp [putRecord, hx]
  · intro x hx
    simp [putRecord, hx]
  · intro hc
    simp [putRecord, hc]
  · intro b hc
    simp [putRecord, hc]
  · intro u hu hne
    have hmem := List.mem_map_of_mem
      (fun w => if w.id == i then
        (⟨t.id,
          match v.task with
          | none => t.task
          | some x => x,
          v.details, t.created, v.completed.getD t.completed, now⟩ : Todo) else w) hu
    simp only [putStore]
    simpa [hne] using hmem

/-- C6 witness: a PUT sending only details succeeds, keeps task,
completed and created, and refreshes updated. -/
theorem C6_amended_put_frame_witness :
    (putRecord (todoPut [⟨1, some "a", "d", 0, false, 0⟩] 1
        ⟨none, some (.jstr "e"), none⟩ 7)).map Todo.created = some 0 ∧
    (putRecord (todoPut [⟨1, some "a", "d", 0, false, 0⟩] 1
        ⟨none, some (.jstr "e"), none⟩ 7)).map Todo.updated = some 7 ∧
    (putRecord (todoPut [⟨1, some "a", "d", 0, false, 0⟩] 1
        ⟨none, some (.jstr "e"), none⟩ 7)).map Todo.details = some "e" ∧
    (putRecord (todoPut [⟨1, some "a", "d", 0, false, 0⟩] 1
        ⟨none, some (.jstr "e"), none⟩ 7)).map Todo.task = some (some "a") ∧
    (putRecord (todoPut [⟨1, some "a", "d", 0, false, 0⟩] 1
        ⟨none, some (.jstr "e"), none⟩ 7)).map Todo.completed = some false := by
  have h := C6_amended_put_frame [⟨1, some "a", "d", 0, false, 0⟩] 1 7
    ⟨none, some (.jstr "e"), none⟩ ⟨1, some "a", "d", 0, false, 0⟩ ⟨none, "e", none⟩
    rfl rfl
  exact ⟨h.1, h.2.1, h.2.2.1, h.2.2.2.1 rfl, h.2.2.2.2.2.1 rfl⟩

theorem validateCName_error_key {x : Option JVal} {e : String × String}
    (h : validateCName x = .error e) : e.1 = "name" := by
  cases x with
  | none =>
    simp only [validateCName] at h
    injection h with h2
    rw [← h2]
  | some j =>
    cases j with
    | jnull =>
      simp only [validateCName] at h
      injection h with h2
      rw [← h2]
    | jbool b =>
      simp only [validateCName] at h
      injection h with h2
      rw [← h2]
    | jstr s =>
      simp only [validateCName] at h
      by_cases hb : s = ""
      · rw [if_pos hb] at h
        injection h with h2
        rw [← h2]
      · rw [if_neg hb] at h
        exact Except.noConfusion h

theorem validateCPhone_error_key {store : List Contact} {x : Option JVal}
    {e : String × String} (h : validateCPhone store x = .error e) :
    e.1 = "phone_number" := by
  cases x with
  | none =>
    simp only [validateCPhone] at h
    injection h with h2
    rw [← h2]
  | some j =>
    cases j with
    | jnull =>
      simp only [validateCPhone] at h
      injection h with h2
      rw [← h2]
    | jbool b =>
      simp only [validateCPhone] at h
      injection h with h2
      rw [← h2]
    | jstr s =>
      simp only [validateCPhone] at h
      by_cases hb : s = ""
      · rw [if_pos hb] at h
        injection h with h2
        rw [← h2]
      · rw [if_neg hb] at h
        by_cases hd : (store.any fun c => c.phone_number == s) = true
        · rw [if_pos hd] at h
          injection h with h2
          rw [← h2]
        · rw [if_neg hd] at h
          exact Except.noConfusion h

theorem validateCEmail_error_key {store : List Contact} {x : Option JVal}
    {e : String × String} (h : validateCEmail store x = .error e) :
    e.1 = "email" := by
  cases x with
  | none =>
    simp only [validateCEmail] at h
    injection h with h2
    rw [← h2]
  | some j =>
    cases j with
    | jnull =>
      simp only [validateCEmail] at h
      injection h with h2
      rw [← h2]
    | jbool b =>
      simp only [validateCEmail] at h
      injection h with h2
      rw [← h2]
    | jstr s =>
      simp only [validateCEmail] at h
      by_cases hb : s = ""
      · rw [if_pos hb] at h
        injection h with h2
        rw [← h2]
      · rw [if_neg hb] at h
        by_cases hfmt : (!(isValidEmail s)) = true
        · rw [if_pos hfmt] at h
          injection h with h2
          rw [← h2]
        · rw [if_neg hfmt] at h
          by_cases hd : (store.any fun c => c.email == s) = true
          · rw [if_pos hd] at h
            injection h with h2
            rw [← h2]
          · rw [if_neg hd] at h
            exact Except.noConfusion h

theorem validateCPhone_dup {store : List Contact} {ph : String}
    (hne : ph ≠ "") (hdup : ∃ c ∈ store, c.phone_number = ph) :
    validateCPhone store (some (.jstr ph)) =
      .error ("phone_number", "Phone number already entered") := by
  obtain ⟨c, hc, hcph⟩ := hdup
  have hany : (store.any fun c => c.phone_number == ph) = true :=
    List.any_eq_true.mpr ⟨c, hc, by simp [hcph]⟩
  simp only [validateCPhone]
  rw [if_neg hne, if_pos hany]

theorem validateCEmail_dup {store : List Contact} {em : String}
    (hne : em ≠ "") (hok : isValidEmail em = true)
    (hdup : ∃ c ∈ store, c.email = em) :
    validateCEmail store (some (.jstr em)) =
      .error ("email", "Email is already used") := by
  obtain ⟨c, hc, hcem⟩ := hdup
  have hany : (store.any fun c => c.email == em) = true :=
    List.any_eq_true.mpr ⟨c, hc, by simp [hcem]⟩
  have hfmt : ¬((!(isValidEmail em)) = true) := by
    rw [hok]
    decide
  simp only [validateCEmail]
  rw [if_neg hne, if_neg hfmt, if_pos hany]

theorem contactPost_fieldError_phone {store : List Contact} {p : ContactPayload}
    {e : String × String} (hp : validateCPhone store p.phone_number = .error e) :
    contactStatus (contactPost store p) = 400 ∧
    e ∈ contactValidationErrors store p ∧
    "non_field_errors" ∉ (contactValidationErrors store p).map Prod.fst := by
  have hkp := validateCPhone_error_key hp
  unfold contactPost contactValidationErrors validateContact
  cases hn : validateCName p.name with
  | error e1 =>
    have hk1 := validateCName_error_key hn
    cases he : validateCEmail store p.email with
    | error e2 =>
      have hk2 := validateCEmail_error_key he
      rw [hp]
      simp [contactStatus, errList, hk1, hkp, hk2]
    | ok em =>
      rw [hp]
      simp [contactStatus, errList, hk1, hkp]
  | ok n =>
    cases he : validateCEmail store p.email with
    | error e2 =>
      have hk2 := validateCEmail_error_key he
      rw [hp]
      simp [contactStatus, errList, hkp, hk2]
    | ok em =>
      rw [hp]
      simp [contactStatus, errList, hkp]

theorem contactPost_fieldError_email {store : List Contact} {p : ContactPayload}
    {e : String × String} (he : validateCEmail store p.email = .error e) :
    contactStatus (contactPost store p) = 400 ∧
    e ∈ contactValidationErrors store p := by
  unfold contactPost contactValidationErrors validateContact
  cases hn : validateCName p.name with
  | error e1 =>
    cases hp : validateCPhone store p.phone_number with
    | error e2 =>
      rw [he]
      simp [contactStatus, errList]
    | ok ph =>
      rw [he]
      simp [contactStatus, errList]
  | ok n =>
    cases hp : validateCPhone store p.phone_number with
    | error e2 =>
      rw [he]
      simp [contactStatus, errList]
    | ok ph =>
      rw [he]
      simp [contactStatus, errList]

/-- C3: a Contact POST whose phone_number duplicates a stored one fails
as a 400 carrying the field-level message "Phone number already entered",
and one whose email duplicates a stored one fails as a 400 carrying the
field-level message "Email is already used". -/
theorem C3_contact_duplicate_messages (store : List Contact) (p : ContactPayload)
    (ph em : String)
    (hp : p.phone_number = some (.jstr ph)) (hpne : ph ≠ "")
    (he : p.email = some (.jstr em)) (hemne : em ≠ "")
    (hemok : isValidEmail em = true) :
    ((∃ c ∈ store, c.phone_number = ph) →
      contactStatus (contactPost store p) = 400 ∧
      ("phone_number", "Phone number already entered") ∈
        contactValidationErrors store p) ∧
    ((∃ c ∈ store, c.email = em) →
      contactStatus (contactPost store p) = 400 ∧
      ("email", "Email is already used") ∈ contactValidationErrors store p) := by
  constructor
  · intro hdup
    have h := contactPost_fieldError_phone (p := p)
      (by rw [hp]; exact validateCPhone_dup hpne hdup)
    exact ⟨h.1, h.2.1⟩
  · intro hdup
    exact contactPost_fieldError_email (p := p)
      (by rw [he]; exact validateCEmail_dup hemne hemok hdup)

/-- C3 witness: posting a contact whose phone and email both match the
stored contact fails with both field messages. -/
theorem C3_contact_duplicate_messages_witness :
    (contactStatus (contactPost [⟨"A", "123", "a@x.com"⟩]
        ⟨some (.jstr "B"), some (.jstr "123"), some (.jstr "a@x.com")⟩) = 400 ∧
      ("phone_number", "Phone number already entered") ∈
        contactValidationErrors [⟨"A", "123", "a@x.com"⟩]
          ⟨some (.jstr "B"), some (.jstr "123"), some (.jstr "a@x.com")⟩) ∧
    (contactStatus (contactPost [⟨"A", "123", "a@x.com"⟩]
        ⟨some (.jstr "B"), some (.jstr "123"), some (.jstr "a@x.com")⟩) = 400 ∧
      ("email", "Email is already used") ∈
        contactValidationErrors [⟨"A", "123", "a@x.com"⟩]
          ⟨some (.jstr "B"), some (.jstr "123"), some (.jstr "a@x.com")⟩) := by
  have h := C3_contact_duplicate_messages [⟨"A", "123", "a@x.com"⟩]
    ⟨some (.jstr "B"), some (.jstr "123"), some (.jstr "a@x.com")⟩
    "123" "a@x.com" rfl (by decide) rfl (by decide) (by decide)
  exact ⟨h.1 ⟨⟨"A", "123", "a@x.com"⟩, by decide, rfl⟩,
         h.2 ⟨⟨"A", "123", "a@x.com"⟩, by decide, rfl⟩⟩

/-- C4 counterexample: posting a second contact with the same name and
phone_number but a different email does fail, yet the reported error is
the field-level "Phone number already entered", not the pair message
"No Phone number can have 2 different names". -/
theorem C4_counterexample :
    contactStatus (contactPost [⟨"Alice", "123", "a@example.com"⟩]
        ⟨some (.jstr "Alice"), some (.jstr "123"), some (.jstr "b@example.com")⟩) =
      400 ∧
    contactValidationErrors [⟨"Alice", "123", "a@example.com"⟩]
        ⟨some (.jstr "Alice"), some (.jstr "123"), some (.jstr "b@example.com")⟩ =
      [("phone_number", "Phone number already entered")] :=
  ⟨rfl, rfl⟩

/-- C4 amended: a POST repeating the (name, phone_number) pair of an
existing Contact fails with HTTP 400 even if the other fields differ, but
the message reported is the field-level "Phone number already entered";
the pair message is never reported because the duplicated pair implies a
duplicated phone_number, whose field validator fails first and prevents
the class-level validators from running. The pairwise invariant still
follows, since the creation is rejected. -/
theorem C4_amended_pair_duplicate (store : List Contact) (p : ContactPayload)
    (n ph : String)
    (hn : p.name = some (.jstr n)) (hp : p.phone_number = some (.jstr ph))
    (hpne : ph ≠ "")
    (hdup : ∃ c ∈ store, c.name = n ∧ c.phone_number = ph) :
    contactStatus (contactPost store p) = 400 ∧
    ("phone_number", "Phone number already entered") ∈
      contactValidationErrors store p ∧
    "non_field_errors" ∉ (contactValidationErrors store p).map Prod.fst := by
  have hdup2 : ∃ c ∈ store, c.phone_number = ph := by
    obtain ⟨c, hc, _, hcp⟩ := hdup
    exact ⟨c, hc, hcp⟩
  exact contactPost_fieldError_phone (p := p)
    (by rw [hp]; exact validateCPhone_dup hpne hdup2)

/-- C4 witness: the concrete duplicate pair fails with the phone message
and without any non_field_errors entry. -/
theorem C4_amended_pair_duplicate_witness :
    contactStatus (contactPost [⟨"Ann", "77", "x@y.org"⟩]
        ⟨some (.jstr "Ann"), some (.jstr "77"), some (.jstr "z@y.org")⟩) = 400 ∧
    ("phone_number", "Phone number already entered") ∈
      contactValidationErrors [⟨"Ann", "77", "x@y.org"⟩]
        ⟨some (.jstr "Ann"), some (.jstr "77"), some (.jstr "z@y.org")⟩ ∧
    "non_field_errors" ∉ (contactValidationErrors [⟨"Ann", "77", "x@y.org"⟩]
        ⟨some (.jstr "Ann"), some (.jstr "77"), some (.jstr "z@y.org")⟩).map Prod.fst :=
  C4_amended_pair_duplicate [⟨"Ann", "77", "x@y.org"⟩]
    ⟨some (.jstr "Ann"), some (.jstr "77"), some (.jstr "z@y.org")⟩ "Ann" "77"
    rfl rfl (by decide) ⟨⟨"Ann", "77", "x@y.org"⟩, by decide, rfl, rfl⟩

theorem validateCPhone_ok_nodup {store : List Contact} {x : Option JVal}
    {s : String} (h : validateCPhone store x = .ok s) :
    ∀ c ∈ store, c.phone_number ≠ s := by
  cases x with
  | none =>
    simp only [validateCPhone] at h
    exact Except.noConfusion h
  | some j =>
    cases j with
    | jnull =>
      simp only [validateCPhone] at h
      exact Except.noConfusion h
    | jbool b =>
      simp only [validateCPhone] at h
      exact Except.noConfusion h
    | jstr s0 =>
      simp only [validateCPhone] at h
      by_cases hb : s0 = ""
      · rw [if_pos hb] at h
        exact Except.noConfusion h
      · rw [if_neg hb] at h
        by_cases hd : (store.any fun c => c.phone_number == s0) = true
        · rw [if_pos hd] at h
          exact Except.noConfusion h
        · rw [if_neg hd] at h
          injection h with h2
          subst h2
          intro c hc
          have hcf := List.any_eq_false.mp (Bool.eq_false_iff.mpr hd) c hc
          simpa using hcf

theorem validateCEmail_ok_nodup {store : List Contact} {x : Option JVal}
    {s : String} (h : validateCEmail store x = .ok s) :
    ∀ c ∈ store, c.email ≠ s := by
  cases x with
  | none =>
    simp only [validateCEmail] at h
    exact Except.noConfusion h
  | some j =>
    cases j with
    | jnull =>
      simp only [validateCEmail] at h
      exact Except.noConfusion h
    | jbool b =>
      simp only [validateCEmail] at h
      exact Except.noConfusion h
    | jstr s0 =>
      simp only [validateCEmail] at h
      by_cases hb : s0 = ""
      · rw [if_pos hb] at h
        exact Except.noConfusion h
      · rw [if_neg hb] at h
        by_cases hfmt : (!(isValidEmail s0)) = true
        · rw [if_pos hfmt] at h
          exact Except.noConfusion h
        · rw [if_neg hfmt] at h
          by_cases hd : (store.any fun c => c.email == s0) = true
          · rw [if_pos hd] at h
            exact Except.noConfusion h
          · rw [if_neg hd] at h
            injection h with h2
            subst h2
            intro c hc
            have hcf := List.any_eq_false.mp (Bool.eq_false_iff.mpr hd) c hc
            simpa using hcf

theorem validateContact_ok_parts {store : List Contact} {p : ContactPayload}
    {c : Contact} (h : validateContact store p = .ok c) :
    validateCName p.name = .ok c.name ∧
    validateCPhone store p.phone_number = .ok c.phone_number ∧
    validateCEmail store p.email = .ok c.email := by
  unfold validateContact at h
  cases hn : validateCName p.name with
  | error e1 =>
    cases hp : validateCPhone store p.phone_number <;>
      cases he : validateCEmail store p.email <;>
        rw [hn, hp, he] at h <;> exact Except.noConfusion h
  | ok n =>
    cases hp : validateCPhone store p.phone_number with
    | error e2 =>
      cases he : validateCEmail store p.email <;>
        rw [hn, hp, he] at h <;> exact Except.noConfusion h
    | ok ph =>
      cases he : validateCEmail store p.email with
      | error e3 =>
        rw [hn, hp, he] at h
        exact Except.noConfusion h
      | ok em =>
        rw [hn, hp, he] at h
        simp only [errList] at h
        by_cases hpair : (store.any fun x =>
            x.name == n && x.phone_number == ph) = true
        · rw [if_pos hpair] at h
          exact Except.noConfusion h
        · rw [if_neg hpair] at h
          injection h with h2
          rw [← h2]
          exact ⟨rfl, rfl, rfl⟩

/-- C10: the Contact record type carries no uniqueness constraint, so a
direct create that bypasses the serializer always succeeds (it always
appends a record), and a pair of direct creates of the same contact
violates every uniqueness invariant; the invariants hold only on the
serializer-guarded POST path, which provably preserves them. -/
theorem C10_contact_model_unconstrained :
    (∀ (store : List Contact) (c : Contact),
      (contactDirectCreate store c).length = store.length + 1 ∧
      c ∈ contactDirectCreate store c) ∧
    ¬ contactStoreInvariant (contactDirectCreate
        (contactDirectCreate [] ⟨"A", "1", "a@x.com"⟩) ⟨"A", "1", "a@x.com"⟩) ∧
    (∀ (store : List Contact) (p : ContactPayload) (c : Contact)
        (store2 : List Contact), contactStoreInvariant store →
      contactPost store p = .created c store2 → contactStoreInvariant store2) := by
  refine ⟨?_, by decide, ?_⟩
  · intro store c
    exact ⟨by simp [contactDirectCreate], by simp [contactDirectCreate]⟩
  · intro store p c store2 hinv hpost
    unfold contactPost at hpost
    cases hvc : validateContact store p with
    | error errs =>
      rw [hvc] at hpost
      exact ContactPostResult.noConfusion hpost
    | ok c0 =>
      rw [hvc] at hpost
      injection hpost with hc hst
      subst hc
      obtain ⟨_, hpok, heok⟩ := validateContact_ok_parts hvc
      have hpn := validateCPhone_ok_nodup hpok
      have hem := validateCEmail_ok_nodup heok
      rw [← hst]
      unfold contactStoreInvariant
      rw [List.pairwise_append]
      refine ⟨hinv, by simp, ?_⟩
      intro a ha b hb
      simp at hb
      subst hb
      exact ⟨hpn a ha, hem a ha, fun hpair => hpn a ha hpair.2⟩

/-- C10 witness: posting a first contact through the serializer path
yields a store satisfying the uniqueness invariants. -/
theorem C10_contact_model_unconstrained_witness :
    contactStoreInvariant [⟨"A", "1", "a@x.com"⟩] :=
  C10_contact_model_unconstrained.2.2 []
    ⟨some (.jstr "A"), some (.jstr "1"), some (.jstr "a@x.com")⟩
    ⟨"A", "1", "a@x.com"⟩ [⟨"A", "1", "a@x.com"⟩] (by decide) (by decide)

theorem validateTask_roundtrip {store : List Todo} {exclude : Option Nat}
    {x : Option JVal} {a : Option (Option String)}
    (h : validateTask store exclude x = .ok a) :
    validateTask [] none (some (serializeTask (a.getD none))) =
      .ok (some (a.getD none)) := by
  cases x with
  | none =>
    simp only [validateTask] at h
    injection h with h2
    subst h2
    rfl
  | some j =>
    cases j with
    | jnull =>
      simp only [validateTask] at h
      injection h with h2
      subst h2
      rfl
    | jbool b =>
      simp only [validateTask] at h
      exact Except.noConfusion h
    | jstr s =>
      simp only [validateTask] at h
      by_cases hb : s = ""
      · rw [if_pos hb] at h
        exact Except.noConfusion h
      · rw [if_neg hb] at h
        by_cases hl : s.length > 200
        · rw [if_pos hl] at h
          exact Except.noConfusion h
        · rw [if_neg hl] at h
          by_cases hd : (store.any fun td =>
              td.task == some s && !(excludedId exclude td.id)) = true
          · rw [if_pos hd] at h
            exact Except.noConfusion h
          · rw [if_neg hd] at h
            injection h with h2
            subst h2
            simp only [Option.getD, serializeTask, validateTask]
            rw [if_neg hb, if_neg hl]
            simp

theorem validateDetails_roundtrip {x : Option JVal} {d : String}
    (h : validateDetails x = .ok d) :
    validateDetails (some (.jstr d)) = .ok d := by
  cases x with
  | none =>
    simp only [validateDetails] at h
    exact Except.noConfusion h
  | some j =>
    cases j with
    | jnull =>
      simp only [validateDetails] at h
      exact Except.noConfusion h
    | jbool b =>
      simp only [validateDetails] at h
      exact Except.noConfusion h
    | jstr s =>
      simp only [validateDetails] at h
      by_cases hb : s = ""
      · rw [if_pos hb] at h
        exact Except.noConfusion h
      · rw [if_neg hb] at h
        by_cases hl : s.length > 500
        · rw [if_pos hl] at h
          exact Except.noConfusion h
        · rw [if_neg hl] at h
          injection h with h2
          subst h2
          simp only [validateDetails]
          rw [if_neg hb, if_neg hl]

theorem validateCompleted_roundtrip {x : Option JVal} {c : Option Bool}
    (h : validateCompleted x = .ok c) :
    validateCompleted (some (.jbool (c.getD false))) = .ok (some (c.getD false)) :=
  rfl

theorem validateTask_ok_str {store : List Todo} {exclude : Option Nat}
    {x : Option JVal} {t : String}
    (h : validateTask store exclude x = .ok (some (some t))) :
    t ≠ "" ∧ ¬(t.length > 200) := by
  cases x with
  | none =>
    simp only [validateTask] at h
    injection h with h2
    exact Option.noConfusion h2
  | some j =>
    cases j with
    | jnull =>
      simp only [validateTask] at h
      injection h with h2
      injection h2 with h3
      exact Option.noConfusion h3
    | jbool b =>
      simp only [validateTask] at h
      exact Except.noConfusion h
    | jstr s =>
      simp only [validateTask] at h
      by_cases hb : s = ""
      · rw [if_pos hb] at h
        exact Except.noConfusion h
      · rw [if_neg hb] at h
        by_cases hl : s.length > 200
        · rw [if_pos hl] at h
          exact Except.noConfusion h
        · rw [if_neg hl] at h
          by_cases hd : (store.any fun td =>
              td.task == some s && !(excludedId exclude td.id)) = true
          · rw [if_pos hd] at h
            exact Except.noConfusion h
          · rw [if_neg hd] at h
            injection h with h2
            injection h2 with h3
            injection h3 with h4
            subst h4
            exact ⟨hb, hl⟩

theorem validateTask_roundtrip_ctx {store : List Todo} {x : Option JVal}
    {a : Option (Option String)} {r : Todo}
    (h : validateTask store none x = .ok a) (hr : r.task = a.getD none) :
    validateTask (store ++ [r]) (some r.id) (some (serializeTask r.task)) =
      .ok (some r.task) := by
  rw [hr]
  cases a with
  | none => rfl
  | some o =>
    cases o with
    | none => rfl
    | some t =>
      obtain ⟨hb, hl⟩ := validateTask_ok_str h
      have huniq := validateTask_ok_unique h
      have hany : ((store ++ [r]).any fun td =>
          td.task == some t && !(excludedId (some r.id) td.id)) = false := by
        rw [List.any_eq_false]
        intro td htd
        rw [List.mem_append] at htd
        cases htd with
        | inl hmem =>
          have hne := huniq td hmem rfl
          simp [hne]
        | inr hmem =>
          rw [List.mem_singleton] at hmem
          subst hmem
          simp [excludedId]
      simp only [Option.getD, serializeTask, validateTask]
      rw [if_neg hb, if_neg hl, if_neg (Bool.eq_false_iff.mp hany)]

/-- C5: rendering a Todo created by a successful POST back to the wire
and running it through the serializer again succeeds and reproduces the
task, details and completed values unchanged; this holds both for a fresh
parse against an empty store and for a parse in the update context of the
created record against the post-state store, where the unique check on
task excludes the record itself. -/
theorem C5_serializer_roundtrip (store : List Todo) (nid now : Nat)
    (p : TodoPayload) (r : Todo) (store2 : List Todo)
    (h : todoPost store nid p now = .created r store2) :
    validateTodo [] none (todoSerialize r) =
      .ok ⟨some r.task, r.details, some r.completed⟩ ∧
    validateTodo store2 (some r.id) (todoSerialize r) =
      .ok ⟨some r.task, r.details, some r.completed⟩ := by
  obtain ⟨v, hv, hr, hst⟩ := todoPost_created h
  obtain ⟨h1, h2, h3⟩ := validateTodo_ok_parts hv
  have ht := validateTask_roundtrip h1
  have hd := validateDetails_roundtrip h2
  have hc := validateCompleted_roundtrip h3
  have htask : r.task = v.task.getD none := by rw [hr]
  have hdet : r.details = v.details := by rw [hr]
  have hcom : r.completed = v.completed.getD false := by rw [hr]
  have htc := validateTask_roundtrip_ctx h1 htask
  constructor
  · unfold validateTodo todoSerialize
    rw [htask, hdet, hcom, ht, hd, hc]
  · unfold validateTodo todoSerialize
    rw [hst, htc]
    rw [hdet, hcom, hd, hc]

/-- C5 witness: the example POST round-trips through the serializer, in
both contexts. -/
theorem C5_serializer_roundtrip_witness :
    validateTodo [] none
        (todoSerialize ⟨0, some "buy milk", "2% milk", 5, false, 5⟩) =
      .ok ⟨some (some "buy milk"), "2% milk", some false⟩ ∧
    validateTodo [⟨0, some "buy milk", "2% milk", 5, false, 5⟩] (some 0)
        (todoSerialize ⟨0, some "buy milk", "2% milk", 5, false, 5⟩) =
      .ok ⟨some (some "buy milk"), "2% milk", some false⟩ :=
  C5_serializer_roundtrip [] 0 5
    ⟨some (.jstr "buy milk"), some (.jstr "2% milk"), some (.jbool false)⟩
    ⟨0, some "buy milk", "2% milk", 5, false, 5⟩
    [⟨0, some "buy milk", "2% milk", 5, false, 5⟩] rfl

theorem pairwise_and {α : Type} {R S : α → α → Prop} {l : List α}
    (h1 : l.Pairwise R) (h2 : l.Pairwise S) :
    l.Pairwise (fun a b => R a b ∧ S a b) := by
  induction l with
  | nil => exact List.Pairwise.nil
  | cons x xs ih =>
    cases h1 with
    | cons hx1 ht1 =>
      cases h2 with
      | cons hx2 ht2 =>
        exact List.Pairwise.cons (fun b hb => ⟨hx1 b hb, hx2 b hb⟩) (ih ht1 ht2)

theorem findTodo_spec {store : List Todo} {i : Nat} {t : Todo}
    (h : findTodo store i = some t) : t ∈ store ∧ t.id = i := by
  unfold findTodo at h
  exact ⟨List.mem_of_find?_eq_some h, by simpa using List.find?_some h⟩

theorem eq_of_pairwise_ids {store : List Todo}
    (hpw : store.Pairwise (fun a b => a.id ≠ b.id))
    {a b : Todo} (ha : a ∈ store) (hb : b ∈ store) (hid : a.id = b.id) :
    a = b := by
  by_contra hne
  exact (List.Pairwise.forall (fun _ _ hxy => hxy.symm) hpw ha hb hne) hid

theorem todoPut_updated {store : List Todo} {i : Nat} {p : TodoPayload}
    {now : Nat} {r : Todo} {store2 : List Todo}
    (h : todoPut store i p now = .updated r store2) :
    ∃ t v, findTodo store i = some t ∧ validateTodo store (some i) p = .ok v ∧
      r = ⟨t.id,
           match v.task with
           | none => t.task
           | some x => x,
           v.details, t.created, v.completed.getD t.completed, now⟩ ∧
      store2 = store.map (fun u => if u.id == i then r else u) := by
  unfold todoPut at h
  cases hf : findTodo store i with
  | none =>
    rw [hf] at h
    exact TodoPutResult.noConfusion h
  | some t =>
    rw [hf] at h
    cases hv : validateTodo store (some i) p with
    | error errs =>
      rw [hv] at h
      exact TodoPutResult.noConfusion h
    | ok v =>
      rw [hv] at h
      simp only [TodoPutResult.updated.injEq] at h
      obtain ⟨h1, h2⟩ := h
      exact ⟨t, v, rfl, rfl, h1.symm, by rw [← h2, h1]⟩

theorem storeInv_post {s : TodoStore} {p : TodoPayload} {now : Nat}
    (h : storeInv s) : storeInv (applyTodoOp s (.post p now)) := by
  have heq : applyTodoOp s (.post p now) =
      (match todoPost s.todos s.nextId p now with
       | .created _ store2 => ⟨store2, s.nextId + 1⟩
       | _ => s) := rfl
  rw [heq]
  cases hres : todoPost s.todos s.nextId p now with
  | notAcceptable msg => exact h
  | keyError => exact h
  | created r store2 =>
    obtain ⟨v, hv, hr, hst⟩ := todoPost_created hres
    obtain ⟨h1, h2, h3⟩ := validateTodo_ok_parts hv
    obtain ⟨hbound, hids, htasks⟩ := h
    subst hst
    refine ⟨?_, ?_, ?_⟩
    · intro u hu
      rw [List.mem_append] at hu
      cases hu with
      | inl hmem => exact Nat.lt_succ_of_lt (hbound u hmem)
      | inr hmem =>
        rw [List.mem_singleton] at hmem
        subst hmem
        rw [hr]
        exact Nat.lt_succ_self _
    · rw [List.pairwise_append]
      refine ⟨hids, by simp, ?_⟩
      intro a ha b hb
      rw [List.mem_singleton] at hb
      subst hb
      rw [hr]
      exact Nat.ne_of_lt (hbound a ha)
    · show taskUnique _
      unfold taskUnique at htasks ⊢
      rw [List.pairwise_append]
      refine ⟨htasks, by simp, ?_⟩
      intro a ha b hb
      rw [List.mem_singleton] at hb
      subst hb
      intro s0 has0 hbs0
      rw [hr] at hbs0
      cases hvt : v.task with
      | none =>
        rw [hvt] at hbs0
        exact Option.noConfusion hbs0
      | some o =>
        cases o with
        | none =>
          rw [hvt] at hbs0
          exact Option.noConfusion hbs0
        | some t0 =>
          rw [hvt] at hbs0
          simp only [Option.getD] at hbs0
          injection hbs0 with ht0
          subst ht0
          rw [hvt] at h1
          exact validateTask_ok_unique h1 a ha rfl has0

theorem storeInv_put {s : TodoStore} {i : Nat} {p : TodoPayload} {now : Nat}
    (h : storeInv s) : storeInv (applyTodoOp s (.put i p now)) := by
  have heq : applyTodoOp s (.put i p now) =
      (match todoPut s.todos i p now with
       | .updated _ store2 => ⟨store2, s.nextId⟩
       | _ => s) := rfl
  rw [heq]
  cases hres : todoPut s.todos i p now with
  | badRequest errs => exact h
  | notFound => exact h
  | updated r store2 =>
    obtain ⟨t, v, hf, hv, hr, hst⟩ := todoPut_updated hres
    obtain ⟨h1, h2, h3⟩ := validateTodo_ok_parts hv
    obtain ⟨hbound, hids, htasks⟩ := h
    obtain ⟨htmem, htid⟩ := findTodo_spec hf
    subst hst
    have hfid : ∀ u : Todo, (if u.id == i then r else u).id = u.id := by
      intro u
      by_cases hc : (u.id == i) = true
      · rw [if_pos hc]
        have hui : u.id = i := by simpa using hc
        rw [hr, htid, hui]
      · rw [if_neg hc]
    refine ⟨?_, ?_, ?_⟩
    · intro u hu
      rw [List.mem_map] at hu
      obtain ⟨w, hw, hwu⟩ := hu
      rw [← hwu, hfid w]
      exact hbound w hw
    · rw [List.pairwise_map]
      exact hids.imp (fun hab => by rw [hfid _, hfid _]; exact hab)
    · show taskUnique _
      unfold taskUnique
      rw [List.pairwise_map]
      refine List.Pairwise.imp_of_mem ?_ (pairwise_and hids htasks)
      intro a b ha hb hab
      obtain ⟨hidab, hTab⟩ := hab
      intro s0 has0 hbs0
      by_cases hca : (a.id == i) = true
      · have hai : a.id = i := by simpa using hca
        have hbne : b.id ≠ i := fun hbi => hidab (by rw [hai, hbi])
        have hcb : ¬((b.id == i) = true) := by simpa using hbne
        rw [if_pos hca] at has0
        rw [if_neg hcb] at hbs0
        have hat : a = t := eq_of_pairwise_ids hids ha htmem (by rw [hai, htid])
        rw [hr] at has0
        cases hvt : v.task with
        | some x =>
          rw [hvt] at has0
          subst has0
          rw [hvt] at h1
          have hexcl : excludedId (some i) b.id = false :=
            Bool.eq_false_iff.mpr hcb
          exact validateTask_ok_unique h1 b hb hexcl hbs0
        | none =>
          rw [hvt] at has0
          exact hTab s0 (by rw [hat]; exact has0) hbs0
      · by_cases hcb : (b.id == i) = true
        · rw [if_neg hca] at has0
          rw [if_pos hcb] at hbs0
          rw [hr] at hbs0
          cases hvt : v.task with
          | some x =>
            rw [hvt] at hbs0
            subst hbs0
            rw [hvt] at h1
            have hexcl : excludedId (some i) a.id = false :=
              Bool.eq_false_iff.mpr hca
            exact validateTask_ok_unique h1 a ha hexcl has0
          | none =>
            rw [hvt] at hbs0
            have hbt : b = t := eq_of_pairwise_ids hids hb htmem
              (by rw [htid]; simpa using hcb)
            exact hTab s0 has0 (by rw [hbt]; exact hbs0)
        · rw [if_neg hca] at has0
          rw [if_neg hcb] at hbs0
          exact hTab s0 has0 hbs0

theorem storeInv_del {s : TodoStore} {i : Nat} (h : storeInv s) :
    storeInv (applyTodoOp s (.del i)) := by
  obtain ⟨hbound, hids, htasks⟩ := h
  have heq : applyTodoOp s (.del i) = ⟨(todoDelete s.todos i).2, s.nextId⟩ := rfl
  rw [heq]
  unfold todoDelete
  cases hf : findTodo s.todos i with
  | none => exact ⟨hbound, hids, htasks⟩
  | some t =>
    refine ⟨?_, ?_, ?_⟩
    · intro u hu
      exact hbound u (List.mem_of_mem_filter hu)
    · exact List.Pairwise.sublist (List.filter_sublist _) hids
    · exact List.Pairwise.sublist (List.filter_sublist _) htasks

theorem storeInv_run (ops : List TodoOp) : storeInv (runTodoOps ops) := by
  have hgen : ∀ (l : List TodoOp) (s : TodoStore), storeInv s →
      storeInv (l.foldl applyTodoOp s) := by
    intro l
    induction l with
    | nil => intro s hs; exact hs
    | cons op rest ih =>
      intro s hs
      rw [List.foldl_cons]
      apply ih
      cases op with
      | post p now => exact storeInv_post hs
      | put i p now => exact storeInv_put hs
      | del i => exact storeInv_del hs
  exact hgen ops ⟨[], 0⟩
    ⟨fun t ht => absurd ht (List.not_mem_nil t), List.Pairwise.nil,
     List.Pairwise.nil⟩

/-- C2: a POST whose non-null task value equals the task of a record
already in the store is never created (its validation fails, so no 201
and no new record), and consequently every store reachable from the empty
store by any sequence of API operations keeps the invariant that no two
records share a non-null task value. -/
theorem C2_task_uniqueness (store : List Todo) (nid now : Nat)
    (p : TodoPayload) (s0 : String)
    (hp : p.task = some (.jstr s0))
    (hdup : ∃ t ∈ store, t.task = some s0) :
    isCreated (todoPost store nid p now) = false ∧
    applyTodoOp ⟨store, nid⟩ (.post p now) = ⟨store, nid⟩ ∧
    ∀ ops : List TodoOp, taskUnique (runTodoOps ops).todos := by
  have hnot : ∀ v, validateTodo store none p ≠ .ok v := by
    intro v hok
    obtain ⟨h1, _, _⟩ := validateTodo_ok_parts hok
    rw [hp] at h1
    simp only [validateTask] at h1
    by_cases hb : s0 = ""
    · rw [if_pos hb] at h1
      exact Except.noConfusion h1
    · rw [if_neg hb] at h1
      by_cases hl : s0.length > 200
      · rw [if_pos hl] at h1
        exact Except.noConfusion h1
      · rw [if_neg hl] at h1
        have hany : (store.any fun td =>
            td.task == some s0 && !(excludedId none td.id)) = true := by
          obtain ⟨t, ht, hts⟩ := hdup
          rw [List.any_eq_true]
          exact ⟨t, ht, by simp [hts, excludedId]⟩
        rw [if_pos hany] at h1
        exact Except.noConfusion h1
  have hpost : ∀ r store2, todoPost store nid p now ≠ .created r store2 := by
    intro r store2 hok
    obtain ⟨v, hv, _, _⟩ := todoPost_created hok
    exact hnot v hv
  refine ⟨?_, ?_, ?_⟩
  · cases hres : todoPost store nid p now with
    | created r store2 => exact absurd hres (hpost r store2)
    | notAcceptable m => rfl
    | keyError => rfl
  · have heq : applyTodoOp ⟨store, nid⟩ (.post p now) =
        (match todoPost store nid p now with
         | .created _ store2 => ⟨store2, nid + 1⟩
         | _ => (⟨store, nid⟩ : TodoStore)) := rfl
    rw [heq]
    cases hres : todoPost store nid p now with
    | created r store2 => exact absurd hres (hpost r store2)
    | notAcceptable m => rfl
    | keyError => rfl
  · intro ops
    exact (storeInv_run ops).2.2

/-- C2 witness: reposting an existing task value is rejected and the
store and the next key are unchanged; the empty run keeps the invariant. -/
theorem C2_task_uniqueness_witness :
    isCreated (todoPost [⟨1, some "a", "d", 0, false, 0⟩] 2
      ⟨some (.jstr "a"), some (.jstr "x"), none⟩ 3) = false ∧
    applyTodoOp ⟨[⟨1, some "a", "d", 0, false, 0⟩], 2⟩
      (.post ⟨some (.jstr "a"), some (.jstr "x"), none⟩ 3) =
      ⟨[⟨1, some "a", "d", 0, false, 0⟩], 2⟩ ∧
    taskUnique (runTodoOps []).todos := by
  have h := C2_task_uniqueness [⟨1, some "a", "d", 0, false, 0⟩] 2 3
    ⟨some (.jstr "a"), some (.jstr "x"), none⟩ "a" rfl
    ⟨⟨1, some "a", "d", 0, false, 0⟩, by decide, rfl⟩
  exact ⟨h.1, h.2.1, h.2.2 []⟩

end FirstApi
